import Mathlib

/-!
Verification of the MaxIOFS-Agent virtual filesystem adapter
(`internal/vfs/s3fs.go` together with `internal/storage/s3client.go`).

The adapter is shallowly embedded as pure Lean functions over an explicit
machine state: the adapter state `S3FS` (open-handle table, listing cache,
capacity cache, handle allocator), the remote bucket contents, the local
staging-file area, and the current time.  Network failures are injected
through a `Net` record of per-call success flags; when a call is allowed
to go through, its result is computed from the modelled bucket following
standard S3 semantics (list-with-prefix, whole-object get/put/delete).

Sizes, offsets and times are modelled as `Nat`: every `int64`/`uint64`
value handled by this code is a nonnegative byte count, block count or
Unix timestamp far below 2^63, so machine-integer wraparound cannot occur.
-/

namespace Agent

/-- Modelled from the spec: POSIX-style result code `ENOENT` (no such
entry) re-exported by the repository's `internal/cgofuse` wrapper, which
is not part of the provided sources.  The concrete value is the standard
POSIX one; the development only relies on the codes being distinct. -/
def ENOENT : Int := 2

/-- Modelled from the spec: POSIX-style result code for an input/output
failure, from the missing `internal/cgofuse` wrapper. -/
def EIO : Int := 5

/-- Modelled from the spec: POSIX-style result code `EBADF` (bad file
descriptor), from the missing `internal/cgofuse` wrapper. -/
def EBADF : Int := 9

/-- Modelled from the spec: POSIX-style result code `ENOSYS` (operation
not supported), from the missing `internal/cgofuse` wrapper. -/
def ENOSYS : Int := 38

/-- Modelled from the spec: POSIX-style result code `ENOTEMPTY`
(directory not empty), from the missing `internal/cgofuse` wrapper. -/
def ENOTEMPTY : Int := 39

/-- Modelled from the spec: the `O_WRONLY` open flag bit from the missing
`internal/cgofuse` wrapper (standard POSIX value). -/
def O_WRONLY : Nat := 1

/-- Modelled from the spec: the `O_RDWR` open flag bit from the missing
`internal/cgofuse` wrapper (standard POSIX value). -/
def O_RDWR : Nat := 2

/-- Modelled from the spec: the `S_IFDIR` mode bit from the missing
`internal/cgofuse` wrapper (standard POSIX value). -/
def S_IFDIR : Nat := 0o40000

/-- Modelled from the spec: the `S_IFREG` mode bit from the missing
`internal/cgofuse` wrapper (standard POSIX value). -/
def S_IFREG : Nat := 0o100000

/-- `^uint64(0)`: the sentinel "no handle" value passed by the driver
host to `Truncate` when no file handle is associated with the call. -/
def SENTINEL : Nat := 2 ^ 64 - 1

/-- `listStarts s p` decides whether the character list `s` starts with
the character list `p` (byte-wise comparison, as Go `strings.HasPrefix`
on the ASCII keys this filesystem manipulates). -/
def listStarts : List Char → List Char → Bool
  | _, [] => true
  | [], _ :: _ => false
  | a :: s, b :: p => a == b && listStarts s p

/-- `strStarts s p`: Go `strings.HasPrefix(s, p)`. -/
def strStarts (s p : String) : Bool :=
  listStarts s.toList p.toList

/-- Go `strings.TrimPrefix(s, p)`: drops one leading occurrence of `p`
from `s` when present, otherwise returns `s` unchanged. -/
def trimPre (s p : String) : String :=
  if strStarts s p then String.mk (s.toList.drop p.toList.length) else s

/-- `key[len(key)-1] == '/'` for a nonempty key (s3client.go line 127):
whether the last character of the string is a slash. -/
def lastIsSlash (s : String) : Bool :=
  match s.toList.getLast? with
  | some c => c == '/'
  | none => false

/-- Index of the first occurrence of a character in a list, Go
`strings.Index` restricted to the single-character needles this code
uses; `none` plays the role of Go's `-1`. -/
def charIndex (c : Char) : List Char → Option Nat
  | [] => none
  | x :: r => if x = c then some 0 else (charIndex c r).map (· + 1)

/-- Association-list lookup, modelling a read from a Go map. -/
def lookupA {κ α : Type} [DecidableEq κ] (k : κ) : List (κ × α) → Option α
  | [] => none
  | kv :: r => if kv.fst = k then some kv.snd else lookupA k r

/-- Association-list insertion/replacement, modelling a Go map store
(`m[k] = v`): replaces the first binding of `k`, or appends one. -/
def insertA {κ α : Type} [DecidableEq κ] (k : κ) (v : α) : List (κ × α) → List (κ × α)
  | [] => [(k, v)]
  | kv :: r => if kv.fst = k then (k, v) :: r else kv :: insertA k v r

/-- Association-list removal, modelling Go `delete(m, k)`: afterwards no
binding of `k` remains. -/
def eraseA {κ α : Type} [DecidableEq κ] (k : κ) : List (κ × α) → List (κ × α)
  | [] => []
  | kv :: r => if kv.fst = k then eraseA k r else kv :: eraseA k r

/-- `storage.ObjectInfo`: the immutable listing snapshot entry produced
by `S3Client.ListObjects` (s3client.go lines 30-36). -/
structure ObjectInfo where
  key : String
  size : Nat
  lastModified : Nat
  isDir : Bool
  etag : String
deriving DecidableEq

/-- One object stored in the remote bucket: its key, its content bytes
(each modelled as a `Nat`), and its modification time. -/
structure StoredObj where
  key : String
  data : List Nat
  mtime : Nat
deriving DecidableEq

/-- Whole-object put against the bucket (S3 `PutObject`): replaces the
object at `key`, or adds it. -/
def storePut (key : String) (data : List Nat) (mtime : Nat) :
    List StoredObj → List StoredObj
  | [] => [{ key := key, data := data, mtime := mtime }]
  | o :: r =>
    if o.key = key then { key := key, data := data, mtime := mtime } :: r
    else o :: storePut key data mtime r

/-- Whole-object get against the bucket (S3 `GetObject`). -/
def storeGet (key : String) : List StoredObj → Option (List Nat)
  | [] => none
  | o :: r => if o.key = key then some o.data else storeGet key r

/-- Object deletion against the bucket (S3 `DeleteObject`); deleting an
absent key is a successful no-op, as in S3. -/
def storeDel (key : String) : List StoredObj → List StoredObj
  | [] => []
  | o :: r => if o.key = key then storeDel key r else o :: storeDel key r

/-- The `ObjectInfo` a listing reports for one stored object
(s3client.go lines 122-141): size from the content length, `isDir` true
iff the key ends in `/`. -/
def objectInfoOf (o : StoredObj) : ObjectInfo :=
  { key := o.key, size := o.data.length, lastModified := o.mtime,
    isDir := lastIsSlash o.key, etag := "" }

/-- `S3Client.ListObjects` (s3client.go lines 99-147) applied to a
bucket: the fully paginated recursive listing of every key starting with
the requested prefix (standard S3 prefix semantics, which include a key
equal to the prefix itself), in bucket order. -/
def listObjects (store : List StoredObj) (pfx : String) : List ObjectInfo :=
  (store.filter (fun o => strStarts o.key pfx)).map objectInfoOf

/-- Per-call network availability flags: when a flag is `false` the
corresponding client call fails with the transport error the Go code
sees as a non-nil `err`. -/
structure Net where
  listOk : Bool
  getOk : Bool
  putOk : Bool
  delOk : Bool
deriving DecidableEq

/-- `S3Client.ListObjects` as invoked by the adapter: either the
transport fails or the listing of the bucket is returned. -/
def listObjectsC (net : Net) (store : List StoredObj) (pfx : String) :
    Except Unit (List ObjectInfo) :=
  if net.listOk then Except.ok (listObjects store pfx) else Except.error ()

/-- `S3Client.GetObject` as invoked by the adapter: fails on transport
failure or on a missing key, otherwise returns the object's bytes (the
reported size is their length, matching `ContentLength`). -/
def getObjectC (net : Net) (store : List StoredObj) (key : String) :
    Except Unit (List Nat) :=
  if net.getOk then
    match storeGet key store with
    | some data => Except.ok data
    | none => Except.error ()
  else Except.error ()

/-- `S3Client.UploadFile`/`UploadData` as invoked by the adapter:
whole-object put, failing on transport failure. -/
def putObjectC (net : Net) (store : List StoredObj) (key : String)
    (data : List Nat) (mtime : Nat) : Except Unit (List StoredObj) :=
  if net.putOk then Except.ok (storePut key data mtime store) else Except.error ()

/-- `S3Client.DeleteObject` as invoked by the adapter. -/
def deleteObjectC (net : Net) (store : List StoredObj) (key : String) :
    Except Unit (List StoredObj) :=
  if net.delOk then Except.ok (storeDel key store) else Except.error ()

/-- `cgofuse.Statfs_t`, the capacity snapshot record.  Modelled from the
spec (the `internal/cgofuse` wrapper is not in the provided sources):
the standard `statvfs`-style fields the adapter assigns. -/
structure Statfs_t where
  bsize : Nat := 0
  frsize : Nat := 0
  blocks : Nat := 0
  bfree : Nat := 0
  bavail : Nat := 0
  files : Nat := 0
  ffree : Nat := 0
  favail : Nat := 0
  fsid : Nat := 0
  flag : Nat := 0
  namemax : Nat := 0
deriving DecidableEq

/-- `cgofuse.Stat_t`, the attribute record filled by `Getattr` and
`Readdir`.  Modelled from the spec (the `internal/cgofuse` wrapper is
not in the provided sources): only the fields this adapter assigns, all
zero-initialised as the driver host hands the callback a zeroed
structure. -/
structure Stat_t where
  mode : Nat := 0
  nlink : Nat := 0
  uid : Nat := 0
  gid : Nat := 0
  size : Nat := 0
  atimSec : Nat := 0
  mtimSec : Nat := 0
  ctimSec : Nat := 0
deriving DecidableEq

/-- `vfs.OpenFile` (s3fs.go lines 51-56): one in-flight write session,
backed by a local staging file. -/
structure OpenFile where
  path : String
  tempFile : String
  size : Nat
  dirty : Bool
deriving DecidableEq

/-- `vfs.S3FS` (s3fs.go lines 18-37): the adapter's mutable state — the
open-handle table and allocator, the capacity (`Statfs`) cache and the
listing cache, each with its fetch timestamp and TTL.  The S3 client,
bucket name and mutex carry no model state. -/
structure S3FS where
  openFiles : List (Nat × OpenFile)
  nextFh : Nat
  statfsCache : Option Statfs_t
  statfsCacheTime : Nat
  statfsCacheTTL : Nat
  listCache : Option (List ObjectInfo)
  listCacheTime : Nat
  listCacheTTL : Nat
deriving DecidableEq

/-- `NewS3FS` (s3fs.go lines 59-71): empty handle table, allocator
starting at 1, empty caches, TTLs of 30s (capacity) and 2s (listing). -/
def NewS3FS : S3FS :=
  { openFiles := [], nextFh := 1,
    statfsCache := none, statfsCacheTime := 0, statfsCacheTTL := 30,
    listCache := none, listCacheTime := 0, listCacheTTL := 2 }

/-- The full machine state an adapter callback acts on: the adapter
state, the remote bucket, the local staging-file area (name to content),
and the current time in seconds. -/
structure World where
  fs : S3FS
  store : List StoredObj
  localFs : List (String × List Nat)
  now : Nat
deriving DecidableEq

/-- `invalidateCaches` (s3fs.go lines 74-81): clears both snapshots and
the listing timestamp (the capacity timestamp is left as is, exactly as
in the source). -/
def invalidateCaches (fs : S3FS) : S3FS :=
  { fs with statfsCache := none, listCache := none, listCacheTime := 0 }

/-- The cache-refresh path of `getListObjects` (s3fs.go lines 94-107): a
full recursive listing of the bucket; on success the listing cache and
its timestamp are replaced. -/
def fetchListObjects (w : World) (net : Net) :
    Except Unit (List ObjectInfo) × World :=
  match listObjectsC net w.store "" with
  | Except.error e => (Except.error e, w)
  | Except.ok objects =>
    (Except.ok objects,
     { w with fs := { w.fs with listCache := some objects, listCacheTime := w.now } })

/-- `getListObjects` (s3fs.go lines 84-108): returns the cached listing
while its age is below the listing TTL, otherwise refreshes.  (Go keeps
the cache as a possibly-nil slice; an empty cached listing is the nil
slice there and never hits, which only makes Go refresh more often than
this model on empty buckets.) -/
def getListObjects (w : World) (net : Net) :
    Except Unit (List ObjectInfo) × World :=
  match w.fs.listCache with
  | some cached =>
    if w.now - w.fs.listCacheTime < w.fs.listCacheTTL then (Except.ok cached, w)
    else fetchListObjects w net
  | none => fetchListObjects w net

/-- The fixed snapshot `Statfs` reports when the listing call fails
(s3fs.go lines 130-145). -/
def syntheticStatfs : Statfs_t :=
  { bsize := 4096, frsize := 4096, blocks := 1000000000,
    bfree := 500000000, bavail := 500000000, files := 1000000,
    ffree := 1000000, favail := 1000000, fsid := 0, flag := 0, namemax := 255 }

/-- Total size of the non-directory entries of a listing (the
`totalSize` accumulator of s3fs.go lines 148-155). -/
def totalFileSize (objects : List ObjectInfo) : Nat :=
  (objects.filter (fun o => o.isDir = false)).foldl (fun a o => a + o.size) 0

/-- Number of non-directory entries of a listing (the `fileCount`
accumulator of s3fs.go lines 148-155). -/
def fileCountOf (objects : List ObjectInfo) : Nat :=
  (objects.filter (fun o => o.isDir = false)).length

/-- `usedBlocks` (s3fs.go lines 157-161): the total size in 4096-byte
blocks, rounded up. -/
def usedBlocksOf (objects : List ObjectInfo) : Nat :=
  totalFileSize objects / 4096 + (if totalFileSize objects % 4096 ≠ 0 then 1 else 0)

/-- `availableBlocks` (s3fs.go lines 164-165): the constant 10 GiB
headroom expressed in 4096-byte blocks. -/
def availableBlocksConst : Nat := 10 * 1024 * 1024 * 1024 / 4096

/-- The capacity snapshot `Statfs` derives from a successful listing
(s3fs.go lines 157-178): used blocks plus the constant headroom as the
total, the headroom as the free figures, file counts plus slack inodes. -/
def statfsStatOf (objects : List ObjectInfo) : Statfs_t :=
  { bsize := 4096, frsize := 4096,
    blocks := usedBlocksOf objects + availableBlocksConst,
    bfree := availableBlocksConst, bavail := availableBlocksConst,
    files := fileCountOf objects + 100000, ffree := 100000, favail := 100000,
    fsid := 0, flag := 0, namemax := 255 }

/-- The compute-and-cache path of `Statfs` (s3fs.go lines 127-194):
lists the bucket directly through the client (not through
`getListObjects`); on failure fills the fixed synthetic snapshot and
returns success without caching; on success derives the block figures
and stores them in the capacity cache. -/
def statfsCompute (w : World) (net : Net) : Int × Statfs_t × World :=
  match listObjectsC net w.store "" with
  | Except.error _ => (0, syntheticStatfs, w)
  | Except.ok objects =>
    let stat := statfsStatOf objects
    (0, stat,
     { w with fs := { w.fs with statfsCache := some stat, statfsCacheTime := w.now } })

/-- `Statfs` (s3fs.go lines 111-195): serves the cached capacity
snapshot while its age is below the capacity TTL, otherwise recomputes.
Returns the result code, the filled `Statfs_t`, and the new state. -/
def Statfs (w : World) (net : Net) (path0 : String) : Int × Statfs_t × World :=
  match w.fs.statfsCache with
  | some cached =>
    if w.now - w.fs.statfsCacheTime < w.fs.statfsCacheTTL then (0, cached, w)
    else statfsCompute w net
  | none => statfsCompute w net

/-- The staging-file name `Open`/`Create` build for a fresh handle
(s3fs.go lines 217-218; the scratch directory prefix is immaterial). -/
def tempFileName (fh : Nat) : String :=
  "maxiofs-" ++ toString fh ++ ".tmp"

/-- `Open` (s3fs.go lines 198-252): read-only opens return at once with
the sentinel handle 0 and touch nothing; write opens allocate the next
handle id, create a staging file — pre-filled with the object's bytes
when the download succeeds, empty otherwise — and register the handle. -/
def Open (w : World) (net : Net) (path0 : String) (flags : Nat) :
    (Int × Nat) × World :=
  let path := trimPre path0 "/"
  let isWrite := (Nat.land flags O_WRONLY != 0) || (Nat.land flags O_RDWR != 0)
  if isWrite = false then ((0, 0), w)
  else
    let fh := w.fs.nextFh
    let tempFile := tempFileName fh
    match getObjectC net w.store path with
    | Except.ok data =>
      let ofl : OpenFile :=
        { path := path, tempFile := tempFile, size := data.length, dirty := false }
      let fs2 := { w.fs with nextFh := fh + 1, openFiles := insertA fh ofl w.fs.openFiles }
      ((0, fh), { w with localFs := insertA tempFile data w.localFs, fs := fs2 })
    | Except.error _ =>
      let ofl : OpenFile :=
        { path := path, tempFile := tempFile, size := 0, dirty := false }
      let fs2 := { w.fs with nextFh := fh + 1, openFiles := insertA fh ofl w.fs.openFiles }
      ((0, fh), { w with localFs := insertA tempFile [] w.localFs, fs := fs2 })

/-- `Flush` (s3fs.go lines 255-293): a no-op success when the handle is
unknown or clean; otherwise uploads the staging file's bytes as the
object at the handle's path (an unreadable staging file or a failed
upload is an I/O error), clears `dirty` and invalidates both caches. -/
def Flush (w : World) (net : Net) (path0 : String) (fh : Nat) : Int × World :=
  match lookupA fh w.fs.openFiles with
  | none => (0, w)
  | some ofl =>
    if ofl.dirty = false then (0, w)
    else
      match lookupA ofl.tempFile w.localFs with
      | none => (- EIO, w)
      | some data =>
        match putObjectC net w.store ofl.path data w.now with
        | Except.error _ => (- EIO, w)
        | Except.ok store2 =>
          let fs2 := { w.fs with
            openFiles := insertA fh { ofl with dirty := false } w.fs.openFiles }
          (0, { w with store := store2, fs := invalidateCaches fs2 })

/-- `Release` (s3fs.go lines 296-328): records the handle's staging-file
name, attempts `Flush` (its result is only logged), then deletes the
staging file and removes the handle, always returning success. -/
def Release (w : World) (net : Net) (path0 : String) (fh : Nat) : Int × World :=
  let tempFile :=
    match lookupA fh w.fs.openFiles with
    | some ofl => ofl.tempFile
    | none => ""
  let w1 := (Flush w net path0 fh).snd
  let w2 := if tempFile = "" then w1
            else { w1 with localFs := eraseA tempFile w1.localFs }
  (0, { w2 with fs := { w2.fs with openFiles := eraseA fh w2.fs.openFiles } })

/-- First open handle whose path equals the target, in table order (the
Go loop over the `openFiles` map in s3fs.go lines 363-377; map iteration
order is unspecified there, the model fixes table order). -/
def findOpenPath (path : String) : List (Nat × OpenFile) → Option OpenFile
  | [] => none
  | kv :: r => if kv.snd.path = path then some kv.snd else findOpenPath path r

/-- The attribute record `Getattr` fills for the root directory
(s3fs.go lines 348-359). -/
def rootStat (now : Nat) : Stat_t :=
  { mode := Nat.lor S_IFDIR 0o777, nlink := 2, uid := 0, gid := 0,
    atimSec := now, mtimSec := now, ctimSec := now }

/-- The attribute record `Getattr` fills when a live write handle
shadows the path (s3fs.go lines 365-375). -/
def openFileStat (size : Nat) (now : Nat) : Stat_t :=
  { mode := Nat.lor S_IFREG 0o666, size := size, uid := 0, gid := 0,
    atimSec := now, mtimSec := now, ctimSec := now }

/-- First listing entry whose key (leading slash trimmed) equals the
target path or the target path plus `/` (s3fs.go lines 392-407). -/
def findExactObj (path : String) : List ObjectInfo → Option ObjectInfo
  | [] => none
  | o :: r =>
    if trimPre o.key "/" = path ∨ trimPre o.key "/" = path ++ "/" then some o
    else findExactObj path r

/-- The attribute record `Getattr` fills for an exact listing match
(s3fs.go lines 395-405). -/
def objStat (o : ObjectInfo) : Stat_t :=
  if o.isDir then { mode := Nat.lor S_IFDIR 0o777, uid := 0, gid := 0 }
  else { mode := Nat.lor S_IFREG 0o666, size := o.size,
         mtimSec := o.lastModified, uid := 0, gid := 0 }

/-- The attribute record `Getattr` fills for an implicit directory
(s3fs.go lines 412-417). -/
def implicitDirStat : Stat_t :=
  { mode := Nat.lor S_IFDIR 0o777, uid := 0, gid := 0 }

/-- Whether some listing entry's raw key lies strictly under the target
(s3fs.go lines 410-418; note the source checks the untrimmed key here). -/
def anyChildOf (path : String) (objects : List ObjectInfo) : Bool :=
  objects.any (fun o => strStarts o.key (path ++ "/"))

/-- `Getattr` (s3fs.go lines 343-423): root, then the open-handle scan,
then the (cached) listing — exact match, implicit directory, or
`-ENOENT`; a listing failure also returns `-ENOENT`.  Returns the result
code, the filled `Stat_t`, and the new state. -/
def Getattr (w : World) (net : Net) (path0 : String) (fh : Nat) :
    (Int × Stat_t) × World :=
  let path := trimPre path0 "/"
  if path = "" then ((0, rootStat w.now), w)
  else
    match findOpenPath path w.fs.openFiles with
    | some ofl => ((0, openFileStat ofl.size w.now), w)
    | none =>
      let gl := getListObjects w net
      match gl.fst with
      | Except.error _ => ((- ENOENT, {}), gl.snd)
      | Except.ok objects =>
        match findExactObj path objects with
        | some obj => ((0, objStat obj), gl.snd)
        | none =>
          if anyChildOf path objects then ((0, implicitDirStat), gl.snd)
          else ((- ENOENT, {}), gl.snd)

/-- The attribute record `Readdir` builds for one emitted child
(s3fs.go lines 494-503). -/
def fillStat (isDir : Bool) (o : ObjectInfo) : Stat_t :=
  if isDir then { mode := Nat.lor S_IFDIR 0o777, uid := 0, gid := 0 }
  else { mode := Nat.lor S_IFREG 0o666, size := o.size,
         mtimSec := o.lastModified, uid := 0, gid := 0 }

/-- The per-entry computation of the `Readdir` loop body (s3fs.go lines
455-484): prefix filtering, remainder stripping, empty-remainder skips,
and first-segment extraction with its directory flag; `none` means the
entry is skipped. -/
def childEntry (pfx : String) (o : ObjectInfo) : Option (String × Bool) :=
  let objKey := trimPre o.key "/"
  if pfx ≠ "" ∧ strStarts objKey pfx = false then none
  else
    let relativePath := if pfx ≠ "" then trimPre objKey pfx else objKey
    if relativePath = "" ∨ relativePath = "/" then none
    else
      match charIndex '/' relativePath.toList with
      | some i =>
        if 0 < i then some (String.mk (relativePath.toList.take i), true)
        else some (relativePath, o.isDir)
      | none => some (relativePath, o.isDir)

/-- The `Readdir` enumeration loop (s3fs.go lines 446-506) with its
`seen`-set deduplication, emitting `fill` calls in listing order. -/
def readdirLoop (pfx : String) :
    List ObjectInfo → List String → List (String × Option Stat_t)
  | [], _ => []
  | o :: rest, seen =>
    match childEntry pfx o with
    | none => readdirLoop pfx rest seen
    | some nd =>
      if nd.fst ∈ seen then readdirLoop pfx rest seen
      else (nd.fst, some (fillStat nd.snd o)) :: readdirLoop pfx rest (nd.fst :: seen)

/-- `Readdir` (s3fs.go lines 426-509): fetches the (cached) listing —
failure returns `-ENOENT` with nothing filled — then fills `.` and `..`
followed by the deduplicated children of the requested directory.
Returns the result code, the emitted `fill` entries, and the new
state. -/
def Readdir (w : World) (net : Net) (path0 : String) :
    (Int × List (String × Option Stat_t)) × World :=
  let path := trimPre path0 "/"
  let gl := getListObjects w net
  match gl.fst with
  | Except.error _ => ((- ENOENT, []), gl.snd)
  | Except.ok objects =>
    let pfx := if path ≠ "" then path ++ "/" else ""
    ((0, (".", none) :: ("..", none) :: readdirLoop pfx objects []), gl.snd)

/-- `Read` (s3fs.go lines 512-550): fetches the whole object on every
call — a store failure is `-EIO` — returns 0 bytes at or past the
reported size, otherwise discards `ofst` bytes and fills the buffer from
the remainder.  Returns the byte count (or error code), the bytes read,
and the (unchanged) state; `buffLen` is the caller's buffer length. -/
def Read (w : World) (net : Net) (path0 : String) (buffLen : Nat) (ofst : Nat)
    (fh : Nat) : Int × List Nat × World :=
  let path := trimPre path0 "/"
  match getObjectC net w.store path with
  | Except.error _ => (- EIO, [], w)
  | Except.ok data =>
    if data.length ≤ ofst then (0, [], w)
    else
      let got := (data.drop ofst).take buffLen
      (Int.ofNat got.length, got, w)

/-- Random-access write into a staging file's bytes (`WriteAt`, s3fs.go
line 576): bytes before `ofst` are kept, a gap beyond the current length
is zero-filled (sparse file), the buffer overwrites from `ofst`, and any
tail beyond it survives. -/
def writeAt (content buff : List Nat) (ofst : Nat) : List Nat :=
  (content.take ofst ++ List.replicate (ofst - content.length) 0) ++ buff
    ++ content.drop (ofst + buff.length)

/-- `Write` (s3fs.go lines 553-595): an unknown handle is `-EBADF`;
otherwise writes the buffer at the offset into the staging file (opened
with create-if-missing), raises the handle's known size to at least
`ofst + len(buff)`, marks it dirty, and returns the byte count. -/
def Write (w : World) (path0 : String) (buff : List Nat) (ofst : Nat)
    (fh : Nat) : Int × World :=
  match lookupA fh w.fs.openFiles with
  | none => (- EBADF, w)
  | some ofl =>
    let content := (lookupA ofl.tempFile w.localFs).getD []
    let newSize := ofst + buff.length
    let ofl2 := { ofl with
      size := if ofl.size < newSize then newSize else ofl.size, dirty := true }
    (Int.ofNat buff.length,
     { w with localFs := insertA ofl.tempFile (writeAt content buff ofst) w.localFs,
              fs := { w.fs with openFiles := insertA fh ofl2 w.fs.openFiles } })

/-- `Create` (s3fs.go lines 598-631): allocates the next handle id with
an empty staging file; the store is not consulted. -/
def Create (w : World) (path0 : String) (flags : Nat) (mode : Nat) :
    (Int × Nat) × World :=
  let path := trimPre path0 "/"
  let fh := w.fs.nextFh
  let tempFile := tempFileName fh
  let ofl : OpenFile := { path := path, tempFile := tempFile, size := 0, dirty := false }
  let fs2 := { w.fs with nextFh := fh + 1, openFiles := insertA fh ofl w.fs.openFiles }
  ((0, fh), { w with localFs := insertA tempFile [] w.localFs, fs := fs2 })

/-- `Unlink` (s3fs.go lines 634-650): deletes the object — failure is
`-EIO` — and invalidates both caches. -/
def Unlink (w : World) (net : Net) (path0 : String) : Int × World :=
  let path := trimPre path0 "/"
  match deleteObjectC net w.store path with
  | Except.error _ => (- EIO, w)
  | Except.ok store2 => (0, { w with store := store2, fs := invalidateCaches w.fs })

/-- `Mkdir` (s3fs.go lines 653-672): uploads a zero-length marker object
at `path + "/"` — failure is `-EIO` — and invalidates both caches. -/
def Mkdir (w : World) (net : Net) (path0 : String) (mode : Nat) : Int × World :=
  let path := trimPre path0 "/"
  match putObjectC net w.store (path ++ "/") [] w.now with
  | Except.error _ => (- EIO, w)
  | Except.ok store2 => (0, { w with store := store2, fs := invalidateCaches w.fs })

/-- `Rmdir` (s3fs.go lines 675-700): lists the bucket with prefix
`path + "/"` — failure is `-EIO` — and fails with `-ENOTEMPTY` when that
listing is nonempty; otherwise deletes the marker object (any failure of
that deletion is ignored) and invalidates both caches. -/
def Rmdir (w : World) (net : Net) (path0 : String) : Int × World :=
  let path := trimPre path0 "/"
  match listObjectsC net w.store (path ++ "/") with
  | Except.error _ => (- EIO, w)
  | Except.ok objects =>
    if 0 < objects.length then (- ENOTEMPTY, w)
    else
      let store2 :=
        match deleteObjectC net w.store (path ++ "/") with
        | Except.ok s2 => s2
        | Except.error _ => w.store
      (0, { w with store := store2, fs := invalidateCaches w.fs })

/-- `os.Truncate` on a staging file's bytes: keeps the first `size`
bytes, zero-extending when the file is shorter. -/
def truncList (content : List Nat) (size : Nat) : List Nat :=
  content.take size ++ List.replicate (size - content.length) 0

/-- `Truncate` (s3fs.go lines 795-843): with a non-sentinel handle,
truncates the staging file (unknown handle is `-EBADF`, a missing
staging file is `-EIO`), sets the known size and marks the handle dirty;
with the sentinel handle, size 0 uploads a zero-length object directly
to the store (failure is `-EIO`) and any other size is `-ENOSYS`. -/
def Truncate (w : World) (net : Net) (path0 : String) (size : Nat) (fh : Nat) :
    Int × World :=
  let path := trimPre path0 "/"
  if fh ≠ SENTINEL then
    match lookupA fh w.fs.openFiles with
    | none => (- EBADF, w)
    | some ofl =>
      match lookupA ofl.tempFile w.localFs with
      | none => (- EIO, w)
      | some content =>
        (0, { w with
              localFs := insertA ofl.tempFile (truncList content size) w.localFs,
              fs := { w.fs with
                openFiles := insertA fh { ofl with size := size, dirty := true }
                  w.fs.openFiles } })
  else
    if size = 0 then
      match putObjectC net w.store path [] w.now with
      | Except.error _ => (- EIO, w)
      | Except.ok store2 => (0, { w with store := store2 })
    else (- ENOSYS, w)

/-- The coupling invariant claimed for the two snapshots, written from the
spec's words for comparison with the code: the listing and capacity snapshots
are either both absent, or both present and stamped by one common fetch. -/
def snapshotsCoupled (fs : S3FS) : Prop :=
  (fs.statfsCache = none ∧ fs.listCache = none) ∨
  (fs.statfsCache ≠ none ∧ fs.listCache ≠ none ∧
    fs.statfsCacheTime = fs.listCacheTime)

/-- A fully available network. -/
def netOK : Net := { listOk := true, getOk := true, putOk := true, delOk := true }

/-- A fully failing network. -/
def netDown : Net :=
  { listOk := false, getOk := false, putOk := false, delOk := false }

/-- A network whose listing calls fail while everything else works. -/
def netNoList : Net :=
  { listOk := false, getOk := true, putOk := true, delOk := true }

/-- A freshly mounted adapter over an empty bucket, 100 seconds in. -/
def wFresh : World := { fs := NewS3FS, store := [], localFs := [], now := 100 }

/-- A bucket holding only the explicit directory marker `empty/`. -/
def wEmptyDir : World :=
  { fs := NewS3FS, store := [{ key := "empty/", data := [], mtime := 7 }],
    localFs := [], now := 100 }

/-- A bucket holding the marker `full/` and a child `full/x`. -/
def wFullDir : World :=
  { fs := NewS3FS,
    store := [{ key := "full/", data := [], mtime := 1 },
              { key := "full/x", data := [1], mtime := 2 }],
    localFs := [], now := 100 }

/-- A live write handle on `a.txt` with 3 known bytes staged. -/
def oflA : OpenFile :=
  { path := "a.txt", tempFile := "maxiofs-1.tmp", size := 3, dirty := true }

/-- An adapter with the single open handle 1 (`oflA`) and its staging
file, over an empty bucket. -/
def wHandle : World :=
  { fs := { NewS3FS with nextFh := 2, openFiles := [(1, oflA)] },
    store := [], localFs := [("maxiofs-1.tmp", [10, 20, 30])], now := 100 }

/-- A bucket holding a 0-byte object `a.txt` and a 4-byte object `b.txt`. -/
def wObj : World :=
  { fs := NewS3FS,
    store := [{ key := "a.txt", data := [], mtime := 3 },
              { key := "b.txt", data := [1, 2, 3, 4], mtime := 4 }],
    localFs := [], now := 100 }

theorem lookupA_insertA {κ α : Type} [DecidableEq κ] (k : κ) (v : α)
    (l : List (κ × α)) : lookupA k (insertA k v l) = some v := by
  induction l with
  | nil => simp [insertA, lookupA]
  | cons kv r ih =>
    by_cases h : kv.fst = k
    · simp [insertA, h, lookupA]
    · simp [insertA, h, lookupA, ih]

theorem lookupA_eraseA {κ α : Type} [DecidableEq κ] (k : κ)
    (l : List (κ × α)) : lookupA k (eraseA k l) = none := by
  induction l with
  | nil => rfl
  | cons kv r ih =>
    by_cases h : kv.fst = k
    · simp [eraseA, h, ih]
    · simp [eraseA, h, lookupA, ih]

theorem storeGet_storePut (key : String) (data : List Nat) (t : Nat)
    (store : List StoredObj) :
    storeGet key (storePut key data t store) = some data := by
  induction store with
  | nil => simp [storePut, storeGet]
  | cons o r ih =>
    by_cases h : o.key = key
    · simp [storePut, h, storeGet]
    · simp [storePut, h, storeGet, ih]

/-- Reading back the written range: the bytes of a staging file at
`[ofst, ofst + buff.length)` after `writeAt` are exactly the buffer. -/
theorem writeAt_read (content buff : List Nat) (ofst : Nat) :
    ((writeAt content buff ofst).drop ofst).take buff.length = buff := by
  have hlen :
      (content.take ofst ++ List.replicate (ofst - content.length) 0).length
        = ofst := by
    simp [List.length_take]
    omega
  have h1 : (writeAt content buff ofst).drop ofst
      = buff ++ content.drop (ofst + buff.length) := by
    unfold writeAt
    rw [List.append_assoc]
    exact List.drop_left' hlen
  rw [h1]
  exact List.take_left _ _

theorem ifLt_eq_max (a b : Nat) : (if a < b then b else a) = max a b := by
  rcases Nat.lt_or_ge a b with h | h
  · rw [if_pos h, Nat.max_eq_right (Nat.le_of_lt h)]
  · rw [if_neg (Nat.not_lt.mpr h), Nat.max_eq_left h]

/-- A listing-cache hit: a cached value within its TTL is returned with no
state change. -/
theorem getListObjects_hit (w : World) (net : Net) (cached : List ObjectInfo)
    (hc : w.fs.listCache = some cached)
    (ht : w.now - w.fs.listCacheTime < w.fs.listCacheTTL) :
    getListObjects w net = (Except.ok cached, w) := by
  unfold getListObjects
  rw [hc]
  simp [ht]

/-- A listing-cache miss (absent or expired) falls through to the fetch. -/
theorem getListObjects_miss (w : World) (net : Net)
    (h : w.fs.listCache = none ∨
      w.fs.listCacheTTL ≤ w.now - w.fs.listCacheTime) :
    getListObjects w net = fetchListObjects w net := by
  unfold getListObjects
  cases hc : w.fs.listCache with
  | none => simp
  | some cached =>
    have hnot : ¬ w.now - w.fs.listCacheTime < w.fs.listCacheTTL := by
      rcases h with h | h
      · rw [hc] at h
        exact absurd h (by simp)
      · omega
    simp [hnot]

/-- A capacity-cache hit: a cached snapshot within its TTL is returned with no
state change. -/
theorem Statfs_hit (w : World) (net : Net) (p : String) (c : Statfs_t)
    (hc : w.fs.statfsCache = some c)
    (ht : w.now - w.fs.statfsCacheTime < w.fs.statfsCacheTTL) :
    Statfs w net p = (0, c, w) := by
  unfold Statfs
  rw [hc]
  simp [ht]

/-- A capacity-cache miss (absent or expired) falls through to the compute
path. -/
theorem Statfs_miss (w : World) (net : Net) (p : String)
    (h : w.fs.statfsCache = none ∨
      w.fs.statfsCacheTTL ≤ w.now - w.fs.statfsCacheTime) :
    Statfs w net p = statfsCompute w net := by
  unfold Statfs
  cases hc : w.fs.statfsCache with
  | none => simp
  | some c =>
    have hnot : ¬ w.now - w.fs.statfsCacheTime < w.fs.statfsCacheTTL := by
      rcases h with h | h
      · rw [hc] at h
        exact absurd h (by simp)
      · omega
    simp [hnot]

/-- C1: the claim says `Rmdir` succeeds when the key set holds only the marker
`P + "/"`, but on a key set containing only `empty/` the call returns
`-ENOTEMPTY`: the listing with prefix `empty/` includes the marker object
itself, so the emptiness check already fails.  The same happens to a directory
just created by `Mkdir`, and the genuinely non-empty case also returns
`-ENOTEMPTY` (that half agrees with the claim). -/
theorem C1_rmdir_marker_only_fails :
    (Rmdir wEmptyDir netOK "/empty").fst = - ENOTEMPTY ∧
    (Rmdir (Mkdir wFresh netOK "/d" 0).snd netOK "/d").fst = - ENOTEMPTY ∧
    (Rmdir wFullDir netOK "/full").fst = - ENOTEMPTY := by decide

/-- C2 (counterexample): with an empty listing cache and a failing listing
call, `Getattr` and `Readdir` return `-ENOENT`, not `-EIO` as the claim
states. -/
theorem C2_counterexample :
    (Getattr wFresh netNoList "/x" 0).fst.fst = - ENOENT ∧
    (Getattr wFresh netNoList "/x" 0).fst.fst ≠ - EIO ∧
    (Readdir wFresh netNoList "/").fst.fst = - ENOENT ∧
    (Readdir wFresh netNoList "/").fst.fst ≠ - EIO := by decide

/-- C2 (amended): a listing-fetch failure during attribute lookup or directory
enumeration is not swallowed — the callback fails — but the failure is
propagated as `-ENOENT` (no such entry), not as `-EIO`. -/
theorem C2_amended (w : World) (net : Net) (p : String)
    (hroot : trimPre p "/" ≠ "")
    (hhandle : findOpenPath (trimPre p "/") w.fs.openFiles = none)
    (hfail : (getListObjects w net).fst = Except.error ()) :
    (Getattr w net p 0).fst.fst = - ENOENT ∧
    (Readdir w net p).fst.fst = - ENOENT := by
  constructor
  · simp only [Getattr, hhandle, hfail]
    rw [if_neg hroot]
  · simp only [Readdir, hfail]

/-- C2 (witness): the amended theorem applied at a concrete world with a
failing listing transport. -/
theorem C2_amended_witness :
    (Getattr wFresh netNoList "/y" 0).fst.fst = - ENOENT ∧
    (Readdir wFresh netNoList "/y").fst.fst = - ENOENT :=
  C2_amended wFresh netNoList "/y" (by decide) rfl rfl

/-- C3 (counterexample): from the initial state, whose caches are both absent
(so the claimed invariant holds), one successful `Statfs` leaves a capacity
snapshot cached while the listing cache stays empty — `Statfs` lists the
bucket directly and never touches the listing cache — so the claimed
invariant is not preserved by every adapter operation. -/
theorem C3_counterexample :
    snapshotsCoupled wFresh.fs ∧
    ¬ snapshotsCoupled (Statfs wFresh netOK "/").snd.snd.fs := by
  unfold snapshotsCoupled
  decide

/-- C3 (amended): each cache individually never serves a value older than its
TTL — `getListObjects` returns either a freshly fetched bucket listing or the
cached one while `now - listCacheTime < listCacheTTL`, and `Statfs` fills
either a freshly computed snapshot or the cached one while
`now - statfsCacheTime < statfsCacheTTL` — and `invalidateCaches` clears both
snapshots together; but the two snapshots are populated independently
(`Statfs` from its own direct listing call, `getListObjects` from its own),
so they need not be both absent or both derived from a common fetch. -/
theorem C3_amended (w : World) (net : Net) (p : String) :
    ((getListObjects w net).fst = Except.error () ∨
     (getListObjects w net).fst = Except.ok (listObjects w.store "") ∨
     (∃ l, w.fs.listCache = some l ∧ (getListObjects w net).fst = Except.ok l ∧
       w.now - w.fs.listCacheTime < w.fs.listCacheTTL)) ∧
    ((Statfs w net p).snd.fst = (statfsCompute w net).snd.fst ∨
     (∃ c, w.fs.statfsCache = some c ∧ (Statfs w net p).snd.fst = c ∧
       w.now - w.fs.statfsCacheTime < w.fs.statfsCacheTTL)) ∧
    (invalidateCaches w.fs).statfsCache = none ∧
    (invalidateCaches w.fs).listCache = none := by
  have fetchCases : (fetchListObjects w net).fst = Except.error () ∨
      (fetchListObjects w net).fst = Except.ok (listObjects w.store "") := by
    unfold fetchListObjects listObjectsC
    by_cases hnet : net.listOk = true
    · simp [hnet]
    · simp [hnet]
  refine ⟨?_, ?_, rfl, rfl⟩
  · cases hc : w.fs.listCache with
    | none =>
      rw [getListObjects_miss w net (Or.inl hc)]
      rcases fetchCases with h | h
      · exact Or.inl h
      · exact Or.inr (Or.inl h)
    | some cached =>
      by_cases ht : w.now - w.fs.listCacheTime < w.fs.listCacheTTL
      · rw [getListObjects_hit w net cached hc ht]
        exact Or.inr (Or.inr ⟨cached, rfl, rfl, ht⟩)
      · rw [getListObjects_miss w net (Or.inr (Nat.not_lt.mp ht))]
        rcases fetchCases with h | h
        · exact Or.inl h
        · exact Or.inr (Or.inl h)
  · cases hs : w.fs.statfsCache with
    | none =>
      rw [Statfs_miss w net p (Or.inl hs)]
      exact Or.inl rfl
    | some c =>
      by_cases ht : w.now - w.fs.statfsCacheTime < w.fs.statfsCacheTTL
      · rw [Statfs_hit w net p c hs ht]
        exact Or.inr ⟨c, rfl, rfl, ht⟩
      · rw [Statfs_miss w net p (Or.inr (Nat.not_lt.mp ht))]
        exact Or.inl rfl

/-- The error path of the capacity computation: a failing listing yields
success with the synthetic snapshot and no state change. -/
theorem statfsCompute_err (w : World) (net : Net) (hno : net.listOk = false) :
    statfsCompute w net = (0, syntheticStatfs, w) := by
  unfold statfsCompute listObjectsC
  rw [hno]
  rfl

/-- The success path of the capacity computation: the snapshot is derived
from the bucket listing and cached. -/
theorem statfsCompute_ok (w : World) (net : Net) (hyes : net.listOk = true) :
    statfsCompute w net =
      (0, statfsStatOf (listObjects w.store ""),
       { w with fs := { w.fs with
           statfsCache := some (statfsStatOf (listObjects w.store "")),
           statfsCacheTime := w.now } }) := by
  unfold statfsCompute listObjectsC
  rw [hyes]
  rfl

/-- C4: for a non-root path shadowed by a live open handle, `Getattr` reports
success and a regular file whose size is the (first) matching handle's known
size; the handle table is consulted before any listing: the state is left
unchanged and the reported attributes are the same for every network and for
every bucket content. -/
theorem C4_handle_shadowing (w : World) (net : Net) (p : String) (ofl : OpenFile)
    (hroot : trimPre p "/" ≠ "")
    (hfind : findOpenPath (trimPre p "/") w.fs.openFiles = some ofl) :
    (Getattr w net p 0).fst.fst = 0 ∧
    (Getattr w net p 0).fst.snd.mode = Nat.lor S_IFREG 0o666 ∧
    (Getattr w net p 0).fst.snd.size = ofl.size ∧
    (Getattr w net p 0).snd = w ∧
    (∀ net2 store2, (Getattr { w with store := store2 } net2 p 0).fst =
      (Getattr w net p 0).fst) := by
  have hred : ∀ (net3 : Net) (w3 : World), w3.fs = w.fs → w3.now = w.now →
      Getattr w3 net3 p 0 = ((0, openFileStat ofl.size w.now), w3) := by
    intro net3 w3 hfs hnow
    unfold Getattr
    rw [if_neg hroot, hfs, hfind, hnow]
  have hmain := hred net w rfl rfl
  rw [hmain]
  refine ⟨rfl, ?_, rfl, rfl, ?_⟩
  · simp [openFileStat]
  · intro net2 store2
    rw [hred net2 { w with store := store2 } rfl rfl]

/-- C4 (witness): the shadowing theorem at a concrete handle over a dead
network and an empty bucket. -/
theorem C4_handle_shadowing_witness :
    (Getattr wHandle netDown "/a.txt" 0).fst.fst = 0 ∧
    (Getattr wHandle netDown "/a.txt" 0).fst.snd.size = oflA.size :=
  ⟨(C4_handle_shadowing wHandle netDown "/a.txt" oflA (by decide) rfl).1,
   (C4_handle_shadowing wHandle netDown "/a.txt" oflA (by decide) rfl).2.2.1⟩

/-- C5: `Release` always returns success and — whether or not the flush it
attempts first succeeded, the network flags being arbitrary, including a
failing upload — deletes the staging file from local storage and removes the
handle from the open-handle table. -/
theorem C5_release_cleanup (w : World) (net : Net) (p : String) (fh : Nat)
    (ofl : OpenFile) (h : lookupA fh w.fs.openFiles = some ofl)
    (h2 : ofl.tempFile ≠ "") :
    (Release w net p fh).fst = 0 ∧
    lookupA fh (Release w net p fh).snd.fs.openFiles = none ∧
    lookupA ofl.tempFile (Release w net p fh).snd.localFs = none := by
  unfold Release
  simp only [h]
  rw [if_neg h2]
  exact ⟨by trivial, lookupA_eraseA fh _, lookupA_eraseA ofl.tempFile _⟩

/-- C5 (witness): the cleanup theorem at a concrete dirty handle whose flush
upload fails (dead network). -/
theorem C5_release_cleanup_witness :
    (Release wHandle netDown "/a.txt" 1).fst = 0 ∧
    lookupA 1 (Release wHandle netDown "/a.txt" 1).snd.fs.openFiles = none ∧
    lookupA oflA.tempFile (Release wHandle netDown "/a.txt" 1).snd.localFs = none :=
  C5_release_cleanup wHandle netDown "/a.txt" 1 oflA rfl (by decide)

/-- C6: when the capacity cache cannot serve the call and the listing fails,
`Statfs` returns success with the fixed synthetic snapshot instead of the
error; when the listing succeeds it returns success with block size 4096, a
free-block count equal to the constant 10 GiB headroom — hence nonzero — and
a total of used plus headroom blocks. -/
theorem C6_statfs_swallows_error (w : World) (net : Net) (p : String)
    (hmiss : w.fs.statfsCache = none ∨
      w.fs.statfsCacheTTL ≤ w.now - w.fs.statfsCacheTime) :
    (net.listOk = false →
      (Statfs w net p).fst = 0 ∧ (Statfs w net p).snd.fst = syntheticStatfs) ∧
    (net.listOk = true →
      (Statfs w net p).fst = 0 ∧
      (Statfs w net p).snd.fst.bsize = 4096 ∧
      (Statfs w net p).snd.fst.bfree = availableBlocksConst ∧
      0 < (Statfs w net p).snd.fst.bfree ∧
      (Statfs w net p).snd.fst.blocks =
        usedBlocksOf (listObjects w.store "") + availableBlocksConst) := by
  rw [Statfs_miss w net p hmiss]
  constructor
  · intro hno
    rw [statfsCompute_err w net hno]
    exact ⟨rfl, rfl⟩
  · intro hyes
    rw [statfsCompute_ok w net hyes]
    refine ⟨rfl, rfl, rfl, ?_, rfl⟩
    have hpos : 0 < availableBlocksConst := by decide
    exact hpos

/-- C6 (witness): the capacity theorem at a fresh mount, once with a failing
listing and once with a working one. -/
theorem C6_statfs_swallows_error_witness :
    (Statfs wFresh netDown "/").fst = 0 ∧
    (Statfs wFresh netDown "/").snd.fst = syntheticStatfs ∧
    (Statfs wObj netOK "/").snd.fst.bsize = 4096 ∧
    0 < (Statfs wObj netOK "/").snd.fst.bfree :=
  ⟨((C6_statfs_swallows_error wFresh netDown "/" (Or.inl rfl)).1 rfl).1,
   ((C6_statfs_swallows_error wFresh netDown "/" (Or.inl rfl)).1 rfl).2,
   ((C6_statfs_swallows_error wObj netOK "/" (Or.inl rfl)).2 rfl).2.1,
   ((C6_statfs_swallows_error wObj netOK "/" (Or.inl rfl)).2 rfl).2.2.2.1⟩

/-- C7: a write through a known handle returns the buffer's length, stores
the buffer at the offset in the staging file (the written range reads back as
the buffer), raises the known size to `max(knownSize, ofst + len(buff))` and
marks the handle dirty; a write through an unknown handle fails with `-EBADF`
and changes nothing. -/
theorem C7_write (w : World) (p : String) (buff : List Nat) (ofst : Nat)
    (fh : Nat) :
    (∀ ofl, lookupA fh w.fs.openFiles = some ofl →
      (Write w p buff ofst fh).fst = Int.ofNat buff.length ∧
      lookupA ofl.tempFile (Write w p buff ofst fh).snd.localFs =
        some (writeAt ((lookupA ofl.tempFile w.localFs).getD []) buff ofst) ∧
      ((writeAt ((lookupA ofl.tempFile w.localFs).getD []) buff ofst).drop
        ofst).take buff.length = buff ∧
      lookupA fh (Write w p buff ofst fh).snd.fs.openFiles =
        some { ofl with size := max ofl.size (ofst + buff.length), dirty := true }) ∧
    (lookupA fh w.fs.openFiles = none →
      (Write w p buff ofst fh).fst = - EBADF ∧
      (Write w p buff ofst fh).snd = w) := by
  constructor
  · intro ofl h
    unfold Write
    simp only [h]
    refine ⟨by trivial, lookupA_insertA _ _ _, writeAt_read _ _ _, ?_⟩
    rw [lookupA_insertA, ifLt_eq_max]
  · intro h
    unfold Write
    simp only [h]
    exact ⟨by trivial, by trivial⟩

/-- C7 (witness): the write theorem at the concrete handle 1 and at the
unknown handle 5. -/
theorem C7_write_witness :
    (Write wHandle "/a.txt" [9, 9] 1 1).fst = Int.ofNat 2 ∧
    (Write wHandle "/a.txt" [9, 9] 1 5).fst = - EBADF :=
  ⟨((C7_write wHandle "/a.txt" [9, 9] 1 1).1 oflA rfl).1,
   ((C7_write wHandle "/a.txt" [9, 9] 1 5).2 rfl).1⟩

/-- C8: reading an existing object at an offset at or beyond its reported
size (including offset 0 of a 0-byte object) returns 0 bytes and no error,
and a failing object fetch is reported as `-EIO`. -/
theorem C8_read_eof_zero (w : World) (net : Net) (p : String)
    (buffLen ofst fh : Nat) :
    (∀ data, getObjectC net w.store (trimPre p "/") = Except.ok data →
      data.length ≤ ofst →
      (Read w net p buffLen ofst fh).fst = 0 ∧
      (Read w net p buffLen ofst fh).snd.fst = []) ∧
    (getObjectC net w.store (trimPre p "/") = Except.error () →
      (Read w net p buffLen ofst fh).fst = - EIO) := by
  constructor
  · intro data hok hle
    unfold Read
    simp only [hok]
    rw [if_pos hle]
    exact ⟨rfl, rfl⟩
  · intro herr
    unfold Read
    simp only [herr]

/-- C8 (witness): the read theorem at a 0-byte object at offset 0, at a
4-byte object at offset 9, and at a dead network. -/
theorem C8_read_eof_zero_witness :
    (Read wObj netOK "/a.txt" 16 0 0).fst = 0 ∧
    (Read wObj netOK "/b.txt" 16 9 0).fst = 0 ∧
    (Read wObj netDown "/b.txt" 16 0 0).fst = - EIO :=
  ⟨((C8_read_eof_zero wObj netOK "/a.txt" 16 0 0).1 [] rfl (by decide)).1,
   ((C8_read_eof_zero wObj netOK "/b.txt" 16 9 0).1 [1, 2, 3, 4] rfl
     (by decide)).1,
   (C8_read_eof_zero wObj netDown "/b.txt" 16 0 0).2 rfl⟩

/-- C9: with a valid (non-sentinel, known) handle, `Truncate` truncates the
staging file to the requested size, sets the handle's known size to it and
marks it dirty, returning success; without a handle (sentinel id), size 0
uploads a zero-length object directly to the store and succeeds, while any
non-zero size fails with `-ENOSYS` and changes nothing. -/
theorem C9_truncate (w : World) (net : Net) (p : String) (size : Nat)
    (fh : Nat) :
    (∀ ofl content, fh ≠ SENTINEL →
      lookupA fh w.fs.openFiles = some ofl →
      lookupA ofl.tempFile w.localFs = some content →
      (Truncate w net p size fh).fst = 0 ∧
      lookupA ofl.tempFile (Truncate w net p size fh).snd.localFs =
        some (truncList content size) ∧
      lookupA fh (Truncate w net p size fh).snd.fs.openFiles =
        some { ofl with size := size, dirty := true }) ∧
    (fh = SENTINEL → size = 0 → net.putOk = true →
      (Truncate w net p size fh).fst = 0 ∧
      storeGet (trimPre p "/") (Truncate w net p size fh).snd.store =
        some []) ∧
    (fh = SENTINEL → size ≠ 0 →
      (Truncate w net p size fh).fst = - ENOSYS ∧
      (Truncate w net p size fh).snd = w) := by
  refine ⟨?_, ?_, ?_⟩
  · intro ofl content hfh h hc
    unfold Truncate
    rw [if_pos hfh]
    simp only [h, hc]
    exact ⟨by trivial, lookupA_insertA _ _ _, by rw [lookupA_insertA]⟩
  · intro hfh hs hput
    subst hfh
    subst hs
    unfold Truncate putObjectC
    rw [if_neg (by simp), if_pos rfl, hput, if_pos rfl]
    exact ⟨rfl, storeGet_storePut _ _ _ _⟩
  · intro hfh hs
    subst hfh
    unfold Truncate
    rw [if_neg (by simp), if_neg hs]
    exact ⟨rfl, rfl⟩

/-- C9 (witness): the truncate theorem at the concrete handle 1, at the
sentinel with size 0, and at the sentinel with size 7. -/
theorem C9_truncate_witness :
    (Truncate wHandle netOK "/a.txt" 1 1).fst = 0 ∧
    (Truncate wHandle netOK "/z" 0 SENTINEL).fst = 0 ∧
    (Truncate wHandle netOK "/z" 7 SENTINEL).fst = - ENOSYS :=
  ⟨((C9_truncate wHandle netOK "/a.txt" 1 1).1 oflA [10, 20, 30] (by decide)
     rfl rfl).1,
   ((C9_truncate wHandle netOK "/z" 0 SENTINEL).2.1 rfl rfl rfl).1,
   ((C9_truncate wHandle netOK "/z" 7 SENTINEL).2.2 rfl (by decide)).1⟩

/-- C10: a read-only open (neither write bit set) returns success with the
sentinel handle 0 and leaves the whole machine state unchanged — no store
call, no handle-table entry, no staging file — for every network and bucket,
in particular when no object exists at the path; a write open with the
allocator at its invariant `1 ≤ nextFh` hands out a handle of at least 1
(hence never the sentinel 0) and bumps the allocator, which `NewS3FS` starts
at 1. -/
theorem C10_open_readonly_sentinel (w : World) (net : Net) (p : String)
    (flags : Nat) :
    (Nat.land flags O_WRONLY = 0 → Nat.land flags O_RDWR = 0 →
      Open w net p flags = ((0, 0), w)) ∧
    ((Nat.land flags O_WRONLY ≠ 0 ∨ Nat.land flags O_RDWR ≠ 0) →
      1 ≤ w.fs.nextFh →
      (Open w net p flags).fst.fst = 0 ∧
      (Open w net p flags).fst.snd = w.fs.nextFh ∧
      1 ≤ (Open w net p flags).fst.snd ∧
      (Open w net p flags).snd.fs.nextFh = w.fs.nextFh + 1) ∧
    NewS3FS.nextFh = 1 := by
  refine ⟨?_, ?_, rfl⟩
  · intro h1 h2
    simp only [Open]
    simp [h1, h2]
  · intro hw hn
    have hisw : ((Nat.land flags O_WRONLY != 0) ||
        (Nat.land flags O_RDWR != 0)) = true := by
      rcases hw with h | h
      · simp [h]
      · simp [h]
    simp only [Open]
    rw [hisw]
    cases hg : getObjectC net w.store (trimPre p "/") with
    | ok data =>
      simp only [hg]
      exact ⟨by trivial, by trivial, hn, by trivial⟩
    | error e =>
      simp only [hg]
      exact ⟨by trivial, by trivial, hn, by trivial⟩

/-- C10 (witness): a read-only open of a path with no backing object over a
live network, and a write open handing out handle 1 on a fresh mount. -/
theorem C10_open_readonly_sentinel_witness :
    Open wObj netOK "/nope.txt" 0 = ((0, 0), wObj) ∧
    1 ≤ (Open wFresh netOK "/a.txt" 1).fst.snd :=
  ⟨(C10_open_readonly_sentinel wObj netOK "/nope.txt" 0).1 rfl rfl,
   ((C10_open_readonly_sentinel wFresh netOK "/a.txt" 1).2.1
     (Or.inl (by decide)) (by decide)).2.2.1⟩

end Agent
